import Mathlib

/-!
Verification of the metis-router MCP proxy.

This file gives a shallow embedding, in Lean 4, of the parts of the
TypeScript sources that the verified properties talk about:

* `server/src/add-new-mcp.ts` — the LRU queue of active MCP servers
  (`_updateActiveMcpQueue`, `MAX_ACTIVE_SERVERS`), the auth check
  (`_hasRequiredAuth`), the in-memory touch (`heatUpMcpServer`) and the
  `addNewMcp` entry point with its persistence behaviour.
* `server/src/mcp-proxy.ts` — the config-file watcher with its semantic
  diff, connection reloading, and the `tools/list` handler that rebuilds
  the tool-to-client route map.
* `server/src/http-streaming.ts` — the authentication middleware,
  `handleUnauthorized`, and the `/health` endpoint.
* `server/src/search-mcps.ts` — the text-based fallback of `searchMCPs`.
* the registry accessor `getServerByName` (its pure transformation of a
  registry entry into a `DatabaseMCPServer`).

JavaScript strings are modelled as Lean `String`s, with the JS operations
(`toLowerCase`, `includes`, `trim`, `split(/\s+/)`, `startsWith`, `||`)
implemented over the underlying character lists so that they compute by
kernel reduction.  JS `Map` objects and plain objects used as records are
modelled as association lists with `set`-overwrites-previous semantics.
Mutation is modelled by explicit state passing; the config file on disk is
a field of an explicit world state, and every `fs.writeFileSync` of the
config is recorded in a write log.
-/

/-- JS `a || b` on strings: `a` when non-empty (truthy), else `b`. -/
def jsOr (a b : String) : String :=
  if a = "" then b else a

/-- JS `String.prototype.toLowerCase` (character-wise lowering). -/
def jsToLower (s : String) : String :=
  ⟨s.data.map Char.toLower⟩

/-- JS `String.prototype.trim`: strip whitespace from both ends. -/
def jsTrim (s : String) : String :=
  ⟨((s.data.dropWhile Char.isWhitespace).reverse.dropWhile Char.isWhitespace).reverse⟩

/-- Whether `needle` occurs as a contiguous sublist of `hay`. -/
def charsInclude (hay needle : List Char) : Bool :=
  if needle.isPrefixOf hay then true
  else
    match hay with
    | [] => false
    | _ :: t => charsInclude t needle

/-- JS `String.prototype.includes`. -/
def jsIncludes (s sub : String) : Bool :=
  charsInclude s.data sub.data

/-- JS `String.prototype.startsWith`. -/
def jsStartsWith (s pre : String) : Bool :=
  pre.data.isPrefixOf s.data

/-- Splitting a character list at whitespace characters.  JS
`split(/\s+/)` collapses whitespace runs; this version instead produces
empty pieces inside runs, which is equivalent for the scoring code since
pieces of length ≤ 2 are ignored there. -/
def splitWsChars : List Char → List (List Char)
  | [] => [[]]
  | c :: t =>
    let rest := splitWsChars t
    if c.isWhitespace then [] :: rest
    else
      match rest with
      | [] => [[c]]
      | w :: ws => (c :: w) :: ws

/-- JS `query.split(/\s+/)` (modulo empty pieces, see `splitWsChars`). -/
def jsSplitWs (s : String) : List String :=
  (splitWsChars s.data).map (fun w => ⟨w⟩)

/-- JS `Array.prototype.join(sep)` / `String.intercalate`, written with
`String.append` so that it computes by kernel reduction. -/
def jsJoin (sep : String) : List String → String
  | [] => ""
  | [x] => x
  | x :: y :: t => x ++ sep ++ jsJoin sep (y :: t)

/-- Lookup in a JS object used as a string record (first binding wins;
the construction functions below keep keys unique). -/
def recordGet (r : List (String × String)) (k : String) : Option String :=
  (r.find? (fun p => p.1 = k)).map (fun p => p.2)

/-- JS `obj[k] = v` on a record: overwrite the existing binding or append. -/
def recordSet (r : List (String × String)) (k v : String) : List (String × String) :=
  if r.any (fun p => p.1 = k) then
    r.map (fun p => if p.1 = k then (k, v) else p)
  else
    r ++ [(k, v)]

/-- JS `Array.prototype.splice(i, 0, a)`: insert at index `i`, clamped to
the length of the array. -/
def spliceInsert (l : List α) (i : Nat) (a : α) : List α :=
  l.take i ++ [a] ++ l.drop i

/-! ## Config model (`server/src/config.ts`) -/

/-- The `transport` object of a server entry in `config.json`. -/
structure TransportConfig where
  ttype : Option String := none
  command : Option String := none
  args : List String := []
  env : Option (List (String × String)) := none
  url : Option String := none
  deriving Repr, DecidableEq

/-- One entry of the `servers` array of `config.json`. -/
structure ServerEntry where
  name : String
  transport : TransportConfig
  deriving Repr, DecidableEq

/-- The parsed `config.json`: `_readFullConfig` guarantees both fields
exist (defaulting to `[]`). -/
structure Config where
  servers : List ServerEntry
  active_mcp_queue : List String
  deriving Repr, DecidableEq

/-! ## The active-server LRU queue (`server/src/add-new-mcp.ts`) -/

def MAX_ACTIVE_SERVERS : Nat := 3

/-- `config.servers.findIndex(s => s.name === evicted)` followed by
`splice(i, 1)`: remove the first entry with the given name, if any. -/
def removeFirstByName (n : String) : List ServerEntry → List ServerEntry
  | [] => []
  | s :: rest => if s.name = n then rest else s :: removeFirstByName n rest

/-- `_updateActiveMcpQueue(serverName, config)`: move/append `serverName`
to the hot end of `active_mcp_queue`; if the queue then exceeds
`MAX_ACTIVE_SERVERS`, shift the coldest name off the front and delete the
first server of that name from `config.servers`. -/
def updateActiveMcpQueue (serverName : String) (config : Config) : Config :=
  let queue := (config.active_mcp_queue.erase serverName) ++ [serverName]
  if MAX_ACTIVE_SERVERS < queue.length then
    { servers :=
        match queue.head? with
        | some evicted => removeFirstByName evicted config.servers
        | none => config.servers
      active_mcp_queue := queue.tail }
  else
    { config with active_mcp_queue := queue }

/-! ### Lemmas about `removeFirstByName` -/

theorem removeFirstByName_sublist (n : String) :
    ∀ l : List ServerEntry, (removeFirstByName n l).Sublist l := by
  intro l
  induction l with
  | nil => simp [removeFirstByName]
  | cons s rest ih =>
    by_cases h : s.name = n
    · rw [removeFirstByName, if_pos h]
      exact List.sublist_cons_self s rest
    · rw [removeFirstByName, if_neg h]
      exact List.Sublist.cons₂ s ih

theorem mem_removeFirstByName_of_ne (n : String) (s : ServerEntry)
    (hs : s.name ≠ n) :
    ∀ l : List ServerEntry, s ∈ l → s ∈ removeFirstByName n l := by
  intro l
  induction l with
  | nil => intro h; exact absurd h (List.not_mem_nil s)
  | cons a rest ih =>
    intro hmem
    by_cases ha : a.name = n
    · rw [removeFirstByName, if_pos ha]
      rcases List.mem_cons.mp hmem with h | h
      · exact absurd (h ▸ ha) hs
      · exact h
    · rw [removeFirstByName, if_neg ha]
      rcases List.mem_cons.mp hmem with h | h
      · exact List.mem_cons.mpr (Or.inl h)
      · exact List.mem_cons.mpr (Or.inr (ih h))

/-! ### C1 / C2: queue invariants and full-cache eviction -/

/-- C1: starting from a configuration whose `active_mcp_queue` has length
at most `MAX_ACTIVE_SERVERS = 3` and pairwise-distinct names, any
application of `_updateActiveMcpQueue` (the admit/touch path) preserves
both invariants: the resulting queue again has length at most 3 and no
server name appears twice in it. -/
theorem C1_updateActiveMcpQueue_preserves_invariants (x : String) (config : Config)
    (hlen : config.active_mcp_queue.length ≤ MAX_ACTIVE_SERVERS)
    (hnd : config.active_mcp_queue.Nodup) :
    (updateActiveMcpQueue x config).active_mcp_queue.length ≤ MAX_ACTIVE_SERVERS ∧
    (updateActiveMcpQueue x config).active_mcp_queue.Nodup := by
  unfold updateActiveMcpQueue
  have hnd1 : ((config.active_mcp_queue.erase x) ++ [x]).Nodup := by
    rw [List.nodup_append]
    refine ⟨hnd.erase x, List.nodup_singleton x, ?_⟩
    intro a ha hax
    rw [List.mem_singleton] at hax
    subst hax
    exact (List.Nodup.not_mem_erase hnd) ha
  have hlen1 : ((config.active_mcp_queue.erase x) ++ [x]).length ≤ MAX_ACTIVE_SERVERS + 1 := by
    rw [List.length_append]
    have h2 : (config.active_mcp_queue.erase x).length ≤ config.active_mcp_queue.length :=
      config.active_mcp_queue.length_erase_le x
    simp only [List.length_singleton]
    omega
  by_cases hcase : MAX_ACTIVE_SERVERS < ((config.active_mcp_queue.erase x) ++ [x]).length
  · rw [if_pos hcase]
    constructor
    · show ((config.active_mcp_queue.erase x ++ [x]).tail).length ≤ MAX_ACTIVE_SERVERS
      rw [List.length_tail]
      omega
    · exact List.Nodup.sublist (List.tail_sublist _) hnd1
  · rw [if_neg hcase]
    refine ⟨?_, hnd1⟩
    show (config.active_mcp_queue.erase x ++ [x]).length ≤ MAX_ACTIVE_SERVERS
    omega

/-- C1 witness: a concrete full, duplicate-free queue. -/
theorem C1_updateActiveMcpQueue_preserves_invariants_witness :
    (Config.mk [] ["a", "b", "c"]).active_mcp_queue.length ≤ MAX_ACTIVE_SERVERS ∧
    (Config.mk [] ["a", "b", "c"]).active_mcp_queue.Nodup ∧
    ((updateActiveMcpQueue "d" (Config.mk [] ["a", "b", "c"])).active_mcp_queue.length ≤ MAX_ACTIVE_SERVERS ∧
     (updateActiveMcpQueue "d" (Config.mk [] ["a", "b", "c"])).active_mcp_queue.Nodup) :=
  ⟨by decide, by decide,
   C1_updateActiveMcpQueue_preserves_invariants "d" (Config.mk [] ["a", "b", "c"])
     (by decide) (by decide)⟩

/-- C2: admitting a name `x` that is not in a full (3-entry) queue evicts
exactly the coldest entry `a` and no other: the new queue is the tail of
the old queue followed by `x`, the servers array loses (at most) the first
entry named `a`, every server entry with a different name survives, and
the new servers array is a sublist of the old one. -/
theorem C2_full_queue_evicts_coldest (x : String) (config : Config)
    (a : String) (t : List String)
    (hq : config.active_mcp_queue = a :: t)
    (hlen : config.active_mcp_queue.length = MAX_ACTIVE_SERVERS)
    (hx : x ∉ config.active_mcp_queue) :
    (updateActiveMcpQueue x config).active_mcp_queue = t ++ [x] ∧
    (updateActiveMcpQueue x config).servers = removeFirstByName a config.servers ∧
    (∀ s ∈ config.servers, s.name ≠ a → s ∈ (updateActiveMcpQueue x config).servers) ∧
    (updateActiveMcpQueue x config).servers.Sublist config.servers := by
  have herase : config.active_mcp_queue.erase x = config.active_mcp_queue :=
    List.erase_of_not_mem hx
  have hgt : MAX_ACTIVE_SERVERS < ((config.active_mcp_queue.erase x) ++ [x]).length := by
    rw [herase, List.length_append]
    simp only [List.length_singleton]
    omega
  have hres : updateActiveMcpQueue x config =
      { servers := removeFirstByName a config.servers
        active_mcp_queue := t ++ [x] } := by
    unfold updateActiveMcpQueue
    rw [if_pos hgt, herase, hq]
    rfl
  rw [hres]
  refine ⟨rfl, rfl, ?_, removeFirstByName_sublist a config.servers⟩
  intro s hmem hne
  exact mem_removeFirstByName_of_ne a s hne config.servers hmem

/-- C2 witness: queue `["a", "b", "c"]` (full), admitting `"d"`. -/
theorem C2_full_queue_evicts_coldest_witness :
    (Config.mk [ServerEntry.mk "a" {}, ServerEntry.mk "b" {}, ServerEntry.mk "c" {}]
        ["a", "b", "c"]).active_mcp_queue = "a" :: ["b", "c"] ∧
    (Config.mk [ServerEntry.mk "a" {}, ServerEntry.mk "b" {}, ServerEntry.mk "c" {}]
        ["a", "b", "c"]).active_mcp_queue.length = MAX_ACTIVE_SERVERS ∧
    "d" ∉ (Config.mk [ServerEntry.mk "a" {}, ServerEntry.mk "b" {}, ServerEntry.mk "c" {}]
        ["a", "b", "c"]).active_mcp_queue ∧
    ((updateActiveMcpQueue "d" (Config.mk
        [ServerEntry.mk "a" {}, ServerEntry.mk "b" {}, ServerEntry.mk "c" {}]
        ["a", "b", "c"])).active_mcp_queue = ["b", "c"] ++ ["d"] ∧
     (updateActiveMcpQueue "d" (Config.mk
        [ServerEntry.mk "a" {}, ServerEntry.mk "b" {}, ServerEntry.mk "c" {}]
        ["a", "b", "c"])).servers = removeFirstByName "a"
        [ServerEntry.mk "a" {}, ServerEntry.mk "b" {}, ServerEntry.mk "c" {}] ∧
     (∀ s ∈ [ServerEntry.mk "a" {}, ServerEntry.mk "b" {}, ServerEntry.mk "c" {}],
        s.name ≠ "a" → s ∈ (updateActiveMcpQueue "d" (Config.mk
          [ServerEntry.mk "a" {}, ServerEntry.mk "b" {}, ServerEntry.mk "c" {}]
          ["a", "b", "c"])).servers) ∧
     (updateActiveMcpQueue "d" (Config.mk
        [ServerEntry.mk "a" {}, ServerEntry.mk "b" {}, ServerEntry.mk "c" {}]
        ["a", "b", "c"])).servers.Sublist
        [ServerEntry.mk "a" {}, ServerEntry.mk "b" {}, ServerEntry.mk "c" {}]) :=
  ⟨rfl, by decide, by decide,
   C2_full_queue_evicts_coldest "d" (Config.mk
      [ServerEntry.mk "a" {}, ServerEntry.mk "b" {}, ServerEntry.mk "c" {}]
      ["a", "b", "c"]) "a" ["b", "c"] rfl (by decide) (by decide)⟩

/-! ## The config-file world and in-memory heating (`add-new-mcp.ts`) -/

/-- The world as seen by `add-new-mcp.ts`: the parsed contents of the
config file (`_readFullConfig`), the in-memory `global.tempMcpQueue`, and
a log recording every `fs.writeFileSync` of the config file. -/
structure FsWorld where
  fileConfig : Config
  tempMcpQueue : Option (List String)
  writes : List Config
  deriving Repr, DecidableEq

/-- `_writeFullConfig(config)`: overwrite the config file (and record the
write in the log). -/
def writeFullConfig (config : Config) (w : FsWorld) : FsWorld :=
  { w with fileConfig := config, writes := w.writes ++ [config] }

/-- `heatUpMcpServer(serverName)`: read the config file; if the server is
not in `config.servers`, warn and return; otherwise update the active
queue in memory only and store it in `global.tempMcpQueue`.  No branch
calls `_writeFullConfig`. -/
def heatUpMcpServer (serverName : String) (w : FsWorld) : FsWorld :=
  let config := w.fileConfig
  if config.servers.any (fun s => s.name = serverName) then
    let config := updateActiveMcpQueue serverName config
    { w with tempMcpQueue := some config.active_mcp_queue }
  else
    w

theorem heatUpMcpServer_fileConfig (serverName : String) (w : FsWorld) :
    (heatUpMcpServer serverName w).fileConfig = w.fileConfig ∧
    (heatUpMcpServer serverName w).writes = w.writes := by
  unfold heatUpMcpServer
  by_cases h : w.fileConfig.servers.any (fun s => s.name = serverName)
  · rw [if_pos h]; exact ⟨rfl, rfl⟩
  · rw [if_neg h]; exact ⟨rfl, rfl⟩

/-- C4: any number of touches (`heatUpMcpServer`) leaves the on-disk
config file untouched: the file contents are unchanged and the write log
records no write.  Touches update only the in-memory queue
(`global.tempMcpQueue`). -/
theorem C4_heatUp_never_writes_config (names : List String) (w : FsWorld) :
    (names.foldl (fun acc n => heatUpMcpServer n acc) w).fileConfig = w.fileConfig ∧
    (names.foldl (fun acc n => heatUpMcpServer n acc) w).writes = w.writes := by
  induction names generalizing w with
  | nil => exact ⟨rfl, rfl⟩
  | cons n rest ih =>
    simp only [List.foldl_cons]
    have h1 := heatUpMcpServer_fileConfig n w
    have h2 := ih (heatUpMcpServer n w)
    exact ⟨h2.1.trans h1.1, h2.2.trans h1.2⟩

/-! ## Registry model (`mcp-registry.ts`, the pure part of `getServerByName`) -/

/-- One element of `auth_requirements` (`{name, description, type}`). -/
structure AuthRequirement where
  name : String
  description : String
  type : String
  deriving Repr, DecidableEq

/-- One element of `argumentRequirements`
(`{name, description, required, example?, position}`). -/
structure ArgumentRequirement where
  name : String
  description : String
  required : Bool
  example? : Option String
  position : Nat
  deriving Repr, DecidableEq

/-- A `{name, description}` tool record from the enhanced index; the
description is optional (the scoring code guards it with `?.`). -/
structure ToolDescription where
  name : String
  description : Option String
  deriving Repr, DecidableEq

/-- A server record from `enhanced-index.json` (the fields the embedded
code reads). -/
structure EnhancedServer where
  name : String
  displayName : String
  originalDescription : String
  aiSummary : String
  aiUseCases : List String
  toolCount : Nat
  toolDescriptions : List ToolDescription
  deriving Repr, DecidableEq

/-- What `registry.mcpServers[name]` holds in `mcp-registry.json`:
`{command, args, env?}`. -/
structure RegistryServerConfig where
  command : String
  args : List String
  env : Option (List (String × String))
  deriving Repr, DecidableEq

/-- The catalog record `getServerByName` produces. -/
structure DatabaseMCPServer where
  id : String
  name : String
  display_name : String
  description : String
  connection_type : String
  command : Option String
  url : Option String
  static_args : Option (List String)
  auth_requirements : List AuthRequirement
  auth_values : Option (List (String × String))
  argumentRequirements : List ArgumentRequirement
  tools : List ToolDescription
  deriving Repr, DecidableEq

/-- The pure transformation inside `getServerByName`: build the
`DatabaseMCPServer` for registry entry `sc` under name `name`, given the
(optional) matching enhanced-index record.  In particular
`argumentRequirements` is always `[]` and `auth_requirements` is derived
from the keys of the registry `env` object. -/
def getServerByNamePure (name : String) (sc : RegistryServerConfig)
    (enhanced : Option EnhancedServer) : DatabaseMCPServer :=
  let isRemote := sc.args.contains "mcp-remote"
  { id := name
    name := name
    display_name := jsOr (match enhanced with | some e => e.displayName | none => "") name
    description := jsOr (match enhanced with | some e => e.aiSummary | none => "")
      (jsOr (match enhanced with | some e => e.originalDescription | none => "")
        (name ++ " MCP server"))
    connection_type := if isRemote then "sse" else "command"
    command := some sc.command
    url := if isRemote then sc.args.getLast? else none
    static_args := some sc.args
    auth_requirements :=
      match sc.env with
      | some env =>
        if 0 < env.length then
          env.map (fun kv => AuthRequirement.mk kv.1 "Authentication required" "api_key")
        else []
      | none => []
    auth_values := sc.env
    argumentRequirements := []
    tools := match enhanced with | some e => e.toolDescriptions | none => [] }

/-- `_hasRequiredAuth(authValues, authRequirements)`: true iff every
required field is present with a value whose trim is non-empty. -/
def hasRequiredAuth (authValues : Option (List (String × String)))
    (authRequirements : List AuthRequirement) : Bool :=
  match authValues with
  | none => false
  | some vals =>
    authRequirements.all (fun req =>
      match recordGet vals req.name with
      | none => false
      | some v => !(v == "" || jsTrim v == ""))

/-- A single auth requirement "lacking a non-empty stored value": the
value is absent, the empty string, or whitespace only. -/
def authValueMissing (authValues : Option (List (String × String)))
    (req : AuthRequirement) : Bool :=
  match authValues with
  | none => true
  | some vals =>
    match recordGet vals req.name with
    | none => true
    | some v => v == "" || jsTrim v == ""

theorem hasRequiredAuth_eq_false_of_missing
    (authValues : Option (List (String × String)))
    (reqs : List AuthRequirement) (req : AuthRequirement)
    (hmem : req ∈ reqs) (hmiss : authValueMissing authValues req = true) :
    hasRequiredAuth authValues reqs = false := by
  match authValues with
  | none => rfl
  | some vals =>
    unfold hasRequiredAuth
    unfold authValueMissing at hmiss
    dsimp only at hmiss
    rw [List.all_eq_false]
    refine ⟨req, hmem, ?_⟩
    match hval : recordGet vals req.name with
    | none => simp [hval]
    | some v =>
      rw [hval] at hmiss
      dsimp only at hmiss
      simp only [hval]
      simp [hmiss]

/-! ## The `addNewMcp` entry point (`add-new-mcp.ts`) -/

/-- JS `s.slice(0, -n)`: drop the last `n` characters. -/
def jsDropRight (s : String) (n : Nat) : String :=
  ⟨s.data.take (s.data.length - n)⟩

/-- JS `s.replace(/\s+/g, '-')`: each maximal whitespace run becomes one
dash. -/
def replaceWsRuns (l : List Char) : List Char :=
  match l with
  | [] => []
  | c :: t =>
    if c.isWhitespace then '-' :: replaceWsRuns (t.dropWhile Char.isWhitespace)
    else c :: replaceWsRuns t
termination_by l.length
decreasing_by
  · have := (List.dropWhile_sublist (l := t) (p := Char.isWhitespace)).length_le
    simp only [List.length_cons]
    omega
  · simp only [List.length_cons]
    omega

/-- `serverName.toLowerCase().replace(/\s+/g, '-')`. -/
def toLowerDashed (s : String) : String :=
  ⟨replaceWsRuns (jsToLower s).data⟩

/-- `formatAuthRequestMessage(serverName, requirements)`.  The `req.example`
field does not exist on `auth_requirements` entries, so the
`if (req.example)` lines never fire and `req.example || 'your_…'` always
takes the fallback. -/
def formatAuthRequestMessage (serverName : String)
    (requirements : List AuthRequirement) : String :=
  let m := "🔐 Authentication Required for " ++ serverName ++ "\n\n"
  let m := m ++ "To use the " ++ serverName ++
    " MCP server, you need to obtain the following credentials:\n\n"
  let m := requirements.foldl
    (fun acc req => acc ++ "• **" ++ req.name ++ "**: " ++ req.description ++ "\n" ++ "\n") m
  let m := m ++ "**Instructions for the Agent:**\n"
  let m := m ++ "1. Ask the user to provide the required credentials listed above\n"
  let m := m ++ "2. Once the user provides the credentials, store them using the following format:\n\n"
  let m := m ++ "**Step 1: Store Authentication Data**\n"
  let m := m ++ "Use the `store_auth_data` function (if available) or ask the user to manually add the credentials to their auth file.\n\n"
  let m := m ++ "**Step 2: Add the Server**\n"
  let m := m ++ "After authentication is stored, retry adding the server:\n"
  let m := m ++ "```\n"
  let m := m ++ "add_new_mcp(\"" ++ toLowerDashed serverName ++ "\")\n"
  let m := m ++ "```\n\n"
  let m := m ++ "**Manual Registry Setup (if needed):**\n"
  let m := m ++ "The user can manually add credentials to `mcp-registry.json` in the env section:\n"
  let m := m ++ "```json\n"
  let m := m ++ "\x7b\n"
  let m := m ++ "  \"mcpServers\": \x7b\n"
  let m := m ++ "    \"" ++ serverName ++ "\": \x7b\n"
  let m := m ++ "      \"command\": \"...\",\n"
  let m := m ++ "      \"args\": [...],\n"
  let m := m ++ "      \"env\": \x7b\n"
  let m := requirements.foldl
    (fun acc req => acc ++ "        \"" ++ req.name ++ "\": \"" ++
      ("your_" ++ jsToLower req.name ++ "_here") ++ "\",\n") m
  let m := if 0 < requirements.length then jsDropRight m 2 ++ "\n" else m
  let m := m ++ "      \x7d\n"
  let m := m ++ "    \x7d\n"
  let m := m ++ "  \x7d\n"
  let m := m ++ "\x7d\n"
  m ++ "```"

/-- `formatArgumentsRequestMessage(serverName, requirements)`. -/
def formatArgumentsRequestMessage (serverName : String)
    (requirements : List ArgumentRequirement) : String :=
  let m := "⚙️ Arguments Required for " ++ serverName ++ "\n\n"
  let m := m ++ "The " ++ serverName ++
    " MCP server requires the following arguments to be provided:\n\n"
  let m := requirements.foldl
    (fun acc req => acc ++ "• **" ++ req.name ++ "**: " ++ req.description ++ "\n" ++
      (match req.example? with
       | some e => "  Example: " ++ e ++ "\n"
       | none => "") ++ "\n") m
  let m := m ++ "**Instructions for the Agent:**\n"
  let m := m ++ "1. Ask the user to provide the required arguments listed above\n"
  let m := m ++ "2. Once the user provides the arguments, add the server using this format:\n\n"
  let m := m ++ "```\n"
  let m := m ++ "add_new_mcp(\"" ++ toLowerDashed serverName ++ "\", \x7b\n"
  let m := requirements.foldl
    (fun acc req => acc ++ "  \"" ++ req.name ++ "\": \"" ++
      (match req.example? with | some e => e | none => "user_provided_value") ++ "\",\n") m
  let m := if 0 < requirements.length then jsDropRight m 2 ++ "\n" else m
  let m := m ++ "\x7d)\n"
  let m := m ++ "```\n\n"
  let m := m ++ "**Example for this server:**\n"
  let m := m ++ "```\n"
  let m := m ++ "add_new_mcp(\"" ++ toLowerDashed serverName ++ "\", \x7b\n"
  let m := requirements.foldl
    (fun acc req => acc ++ "  \"" ++ req.name ++ "\": \"" ++
      (match req.example? with | some e => e | none => "your_value_here") ++ "\",\n") m
  let m := if 0 < requirements.length then jsDropRight m 2 ++ "\n" else m
  let m := m ++ "\x7d)\n"
  m ++ "```"

/-- The structured `authRequest` of an `AddMCPResult`. -/
structure AuthRequest where
  serverName : String
  requirements : List AuthRequirement
  message : String
  deriving Repr, DecidableEq

/-- The structured `argumentsRequest` of an `AddMCPResult`. -/
structure ArgumentsRequest where
  serverName : String
  requirements : List ArgumentRequirement
  message : String
  deriving Repr, DecidableEq

/-- The structured result `addNewMcp` always resolves to. -/
structure AddMCPResult where
  success : Bool
  message : String
  authRequest : Option AuthRequest := none
  argumentsRequest : Option ArgumentsRequest := none
  serverInfo : Option DatabaseMCPServer := none
  deriving Repr, DecidableEq

/-- Result type of `addServerToConfig`. -/
structure ConfigUpdateResult where
  success : Bool
  message : String
  updatedConfig : Option Config := none
  deriving Repr, DecidableEq

/-- The `envVars` object built for auth: one binding per auth requirement
whose stored value is truthy (non-empty). -/
def authEnvVars (serverDef : DatabaseMCPServer) : List (String × String) :=
  match serverDef.auth_values with
  | none => []
  | some av =>
    serverDef.auth_requirements.foldl
      (fun acc req =>
        match recordGet av req.name with
        | some v => if v = "" then acc else recordSet acc req.name v
        | none => acc) []

/-- `addServerToConfig(serverDef, serverArgs, config)`: build the config
entry for the server (static-args, SSE, or local-command shape) and append
it to `config.servers`.  The source returns `success: true` with the
updated config on every path. -/
def addServerToConfig (serverDef : DatabaseMCPServer)
    (serverArgs : Option (List (String × String))) (config : Config) :
    ConfigUpdateResult :=
  let entry : ServerEntry :=
    if 0 < (serverDef.static_args.getD []).length then
      let envVars := if 0 < serverDef.auth_requirements.length then authEnvVars serverDef else []
      { name := serverDef.name
        transport :=
          { command := serverDef.command
            args := serverDef.static_args.getD []
            env := if 0 < envVars.length then some envVars else none } }
    else if serverDef.connection_type = "sse" then
      { name := serverDef.name
        transport := { ttype := some "sse", url := serverDef.url } }
    else
      let baseArgs := serverDef.static_args.getD []
      let args :=
        match serverArgs with
        | none => baseArgs
        | some sa =>
          let sortedArgs := List.insertionSort (fun a b => a.position ≤ b.position)
            (serverDef.argumentRequirements.filter (fun req =>
              match recordGet sa req.name with
              | some v => !(v == "")
              | none => false))
          sortedArgs.foldl
            (fun acc req =>
              match recordGet sa req.name with
              | some v => if v = "" then acc else spliceInsert acc req.position v
              | none => acc) baseArgs
      let envVars := if 0 < serverDef.auth_requirements.length then authEnvVars serverDef else []
      { name := serverDef.name
        transport :=
          { command := serverDef.command
            args := args
            env := if 0 < envVars.length then some envVars else none } }
  { success := true
    message := jsOr serverDef.display_name serverDef.name ++ " MCP server prepared for config."
    updatedConfig := some { config with servers := config.servers ++ [entry] } }

/-- An entry of the `getAllServers()` result (the fields `addNewMcp`
reads to build the "Available servers" list). -/
structure ServerSummary where
  name : String
  display_name : String
  deriving Repr, DecidableEq

/-- `addNewMcp(name, serverArgs?)`.  The two awaited registry reads are the
fallible operations inside the `try` block; their outcomes are passed in
as `Except` values (an `error` value plays the thrown exception).  All
other steps are pure.  The function reads the config once at entry, and on
a caught exception writes that entry config back before returning a
`success: false` result. -/
def addNewMcp (lookupResult : Except String (Option DatabaseMCPServer))
    (allServersResult : Except String (List ServerSummary))
    (name : String) (serverArgs : Option (List (String × String)))
    (w : FsWorld) : AddMCPResult × FsWorld :=
  let config := w.fileConfig
  match lookupResult with
  | Except.error e =>
    ({ success := false, message := "Error adding MCP server: " ++ e },
     writeFullConfig config w)
  | Except.ok none =>
    match allServersResult with
    | Except.error e =>
      ({ success := false, message := "Error adding MCP server: " ++ e },
       writeFullConfig config w)
    | Except.ok allServers =>
      let available := jsJoin ", " (allServers.map (fun s => jsOr s.display_name s.name))
      ({ success := false
         message := "MCP server '" ++ name ++ "' not found. Available servers: " ++ available },
       w)
  | Except.ok (some serverDef) =>
    if config.servers.any (fun s => s.name = serverDef.name) then
      let config := updateActiveMcpQueue serverDef.name config
      ({ success := false
         message := jsOr serverDef.display_name serverDef.name ++
           " MCP server already exists in config (moved to end of active queue)."
         serverInfo := some serverDef },
       writeFullConfig config w)
    else
      let missingArgs := serverDef.argumentRequirements.filter (fun req =>
        req.required &&
          (match serverArgs with
           | none => true
           | some sa =>
             match recordGet sa req.name with
             | none => true
             | some v => v == ""))
      if 0 < serverDef.argumentRequirements.length ∧ 0 < missingArgs.length then
        ({ success := false
           message := "Arguments required for " ++ jsOr serverDef.display_name serverDef.name ++
             ". Please provide the required arguments."
           argumentsRequest := some
             { serverName := jsOr serverDef.display_name serverDef.name
               requirements := missingArgs
               message := formatArgumentsRequestMessage
                 (jsOr serverDef.display_name serverDef.name) missingArgs }
           serverInfo := some serverDef },
         w)
      else if 0 < serverDef.auth_requirements.length ∧
          hasRequiredAuth serverDef.auth_values serverDef.auth_requirements = false then
        ({ success := false
           message := "Authentication required for " ++ jsOr serverDef.display_name serverDef.name ++
             ". Please provide the required credentials first."
           authRequest := some
             { serverName := jsOr serverDef.display_name serverDef.name
               requirements := serverDef.auth_requirements
               message := formatAuthRequestMessage
                 (jsOr serverDef.display_name serverDef.name) serverDef.auth_requirements }
           serverInfo := some serverDef },
         w)
      else
        let addResult := addServerToConfig serverDef serverArgs config
        if addResult.success then
          match addResult.updatedConfig with
          | some updated =>
            let config := updateActiveMcpQueue serverDef.name updated
            ({ success := true, message := addResult.message, serverInfo := some serverDef },
             writeFullConfig config w)
          | none =>
            ({ success := false, message := "Failed to update config with server and queue."
               serverInfo := some serverDef },
             writeFullConfig config w)
        else
          ({ success := false, message := addResult.message, serverInfo := some serverDef },
           w)

/-! ### C6 / C10: needs-auth behaviour and total error handling -/

/-- C6: for a catalog entry (as produced by `getServerByName`) that is not
already in the config and whose `auth_requirements` are non-empty with
some required env var lacking a non-empty stored value, `addNewMcp`
returns a needs-auth structured result carrying the auth requirements,
and leaves the world — in particular the config file's `servers` array
and `active_mcp_queue` — completely unchanged (no write happens). -/
theorem C6_needs_auth_returns_request_and_no_write
    (regName : String) (sc : RegistryServerConfig) (enhanced : Option EnhancedServer)
    (allServersResult : Except String (List ServerSummary))
    (serverArgs : Option (List (String × String))) (w : FsWorld)
    (hfresh : w.fileConfig.servers.any
      (fun s => s.name = (getServerByNamePure regName sc enhanced).name) = false)
    (hreqs : (getServerByNamePure regName sc enhanced).auth_requirements ≠ [])
    (hmissing : ∃ req ∈ (getServerByNamePure regName sc enhanced).auth_requirements,
        authValueMissing (getServerByNamePure regName sc enhanced).auth_values req = true) :
    (addNewMcp (Except.ok (some (getServerByNamePure regName sc enhanced)))
        allServersResult regName serverArgs w).1.success = false ∧
    (addNewMcp (Except.ok (some (getServerByNamePure regName sc enhanced)))
        allServersResult regName serverArgs w).1.authRequest = some
      { serverName := jsOr (getServerByNamePure regName sc enhanced).display_name
          (getServerByNamePure regName sc enhanced).name
        requirements := (getServerByNamePure regName sc enhanced).auth_requirements
        message := formatAuthRequestMessage
          (jsOr (getServerByNamePure regName sc enhanced).display_name
            (getServerByNamePure regName sc enhanced).name)
          (getServerByNamePure regName sc enhanced).auth_requirements } ∧
    (addNewMcp (Except.ok (some (getServerByNamePure regName sc enhanced)))
        allServersResult regName serverArgs w).2 = w := by
  obtain ⟨req, hreqmem, hreqmiss⟩ := hmissing
  have hauth : hasRequiredAuth (getServerByNamePure regName sc enhanced).auth_values
      (getServerByNamePure regName sc enhanced).auth_requirements = false :=
    hasRequiredAuth_eq_false_of_missing _ _ req hreqmem hreqmiss
  have hargs : (getServerByNamePure regName sc enhanced).argumentRequirements = [] := rfl
  have hres : addNewMcp (Except.ok (some (getServerByNamePure regName sc enhanced)))
      allServersResult regName serverArgs w =
      ({ success := false
         message := "Authentication required for " ++
           jsOr (getServerByNamePure regName sc enhanced).display_name
             (getServerByNamePure regName sc enhanced).name ++
           ". Please provide the required credentials first."
         authRequest := some
           { serverName := jsOr (getServerByNamePure regName sc enhanced).display_name
               (getServerByNamePure regName sc enhanced).name
             requirements := (getServerByNamePure regName sc enhanced).auth_requirements
             message := formatAuthRequestMessage
               (jsOr (getServerByNamePure regName sc enhanced).display_name
                 (getServerByNamePure regName sc enhanced).name)
               (getServerByNamePure regName sc enhanced).auth_requirements }
         serverInfo := some (getServerByNamePure regName sc enhanced) }, w) := by
    unfold addNewMcp
    dsimp only
    rw [if_neg (by simp [hfresh]), hargs]
    rw [if_neg (by simp)]
    rw [if_pos ⟨List.length_pos.mpr hreqs, hauth⟩]
  exact ⟨by rw [hres], by rw [hres], by rw [hres]⟩

/-- C6 witness: the `git` entry requires env `GIT_TOKEN`, stored empty. -/
theorem C6_needs_auth_witness :
    ((FsWorld.mk (Config.mk [] []) none []).fileConfig.servers.any
      (fun s => s.name = (getServerByNamePure "git"
        (RegistryServerConfig.mk "npx" ["-y", "git-mcp"] (some [("GIT_TOKEN", "")]))
        none).name) = false) ∧
    ((getServerByNamePure "git"
        (RegistryServerConfig.mk "npx" ["-y", "git-mcp"] (some [("GIT_TOKEN", "")]))
        none).auth_requirements ≠ []) ∧
    ((addNewMcp (Except.ok (some (getServerByNamePure "git"
        (RegistryServerConfig.mk "npx" ["-y", "git-mcp"] (some [("GIT_TOKEN", "")]))
        none))) (Except.ok []) "git" none
        (FsWorld.mk (Config.mk [] []) none [])).1.success = false ∧
     (addNewMcp (Except.ok (some (getServerByNamePure "git"
        (RegistryServerConfig.mk "npx" ["-y", "git-mcp"] (some [("GIT_TOKEN", "")]))
        none))) (Except.ok []) "git" none
        (FsWorld.mk (Config.mk [] []) none [])).2 =
        FsWorld.mk (Config.mk [] []) none []) :=
  ⟨by decide, by decide,
   (C6_needs_auth_returns_request_and_no_write "git"
      (RegistryServerConfig.mk "npx" ["-y", "git-mcp"] (some [("GIT_TOKEN", "")]))
      none (Except.ok []) none (FsWorld.mk (Config.mk [] []) none [])
      (by decide) (by decide) (by decide)).1,
   (C6_needs_auth_returns_request_and_no_write "git"
      (RegistryServerConfig.mk "npx" ["-y", "git-mcp"] (some [("GIT_TOKEN", "")]))
      none (Except.ok []) none (FsWorld.mk (Config.mk [] []) none [])
      (by decide) (by decide) (by decide)).2.2⟩

/-- C10: `addNewMcp` always resolves to a structured result.  An unknown
name yields `success: false` with the joined list of known server names in
the message (and no config write); a thrown registry exception — whether
from the name lookup or from the all-servers listing — is caught and
converted into a `success: false` result after the config read at entry is
written back to the config file. -/
theorem C10_addNewMcp_total_error_handling
    (lookupResult : Except String (Option DatabaseMCPServer))
    (allServersResult : Except String (List ServerSummary))
    (name : String) (serverArgs : Option (List (String × String))) (w : FsWorld) :
    (∀ e, lookupResult = Except.error e →
      (addNewMcp lookupResult allServersResult name serverArgs w).1.success = false ∧
      (addNewMcp lookupResult allServersResult name serverArgs w).2 =
        writeFullConfig w.fileConfig w) ∧
    (∀ all, lookupResult = Except.ok none → allServersResult = Except.ok all →
      (addNewMcp lookupResult allServersResult name serverArgs w).1.success = false ∧
      (addNewMcp lookupResult allServersResult name serverArgs w).1.message =
        "MCP server '" ++ name ++ "' not found. Available servers: " ++
          jsJoin ", " (all.map (fun s => jsOr s.display_name s.name)) ∧
      (addNewMcp lookupResult allServersResult name serverArgs w).2 = w) ∧
    (∀ e, lookupResult = Except.ok none → allServersResult = Except.error e →
      (addNewMcp lookupResult allServersResult name serverArgs w).1.success = false ∧
      (addNewMcp lookupResult allServersResult name serverArgs w).2 =
        writeFullConfig w.fileConfig w) := by
  refine ⟨?_, ?_, ?_⟩
  · intro e he
    subst he
    exact ⟨rfl, rfl⟩
  · intro all h1 h2
    subst h1
    subst h2
    exact ⟨rfl, rfl, rfl⟩
  · intro e h1 h2
    subst h1
    subst h2
    exact ⟨rfl, rfl⟩

/-- C10 witness: a thrown lookup, an unknown name, and a thrown listing. -/
theorem C10_addNewMcp_total_error_handling_witness :
    ((addNewMcp (Except.error "boom") (Except.ok []) "git" none
        (FsWorld.mk (Config.mk [] []) none [])).1.success = false ∧
     (addNewMcp (Except.error "boom") (Except.ok []) "git" none
        (FsWorld.mk (Config.mk [] []) none [])).2 =
       writeFullConfig (Config.mk [] []) (FsWorld.mk (Config.mk [] []) none [])) ∧
    ((addNewMcp (Except.ok none) (Except.ok [ServerSummary.mk "github" "GitHub"])
        "nope" none (FsWorld.mk (Config.mk [] []) none [])).1.success = false ∧
     (addNewMcp (Except.ok none) (Except.ok [ServerSummary.mk "github" "GitHub"])
        "nope" none (FsWorld.mk (Config.mk [] []) none [])).1.message =
       "MCP server '" ++ "nope" ++ "' not found. Available servers: " ++
         jsJoin ", " ([ServerSummary.mk "github" "GitHub"].map
           (fun s => jsOr s.display_name s.name)) ∧
     (addNewMcp (Except.ok none) (Except.ok [ServerSummary.mk "github" "GitHub"])
        "nope" none (FsWorld.mk (Config.mk [] []) none [])).2 =
       FsWorld.mk (Config.mk [] []) none []) ∧
    ((addNewMcp (Except.ok none) (Except.error "fs down") "git" none
        (FsWorld.mk (Config.mk [] []) none [])).1.success = false ∧
     (addNewMcp (Except.ok none) (Except.error "fs down") "git" none
        (FsWorld.mk (Config.mk [] []) none [])).2 =
       writeFullConfig (Config.mk [] []) (FsWorld.mk (Config.mk [] []) none [])) :=
  ⟨(C10_addNewMcp_total_error_handling (Except.error "boom") (Except.ok []) "git" none
      (FsWorld.mk (Config.mk [] []) none [])).1 "boom" rfl,
   (C10_addNewMcp_total_error_handling (Except.ok none)
      (Except.ok [ServerSummary.mk "github" "GitHub"]) "nope" none
      (FsWorld.mk (Config.mk [] []) none [])).2.1
      [ServerSummary.mk "github" "GitHub"] rfl rfl,
   (C10_addNewMcp_total_error_handling (Except.ok none) (Except.error "fs down") "git" none
      (FsWorld.mk (Config.mk [] []) none [])).2.2 "fs down" rfl rfl⟩

/-! ## The proxy (`mcp-proxy.ts`): route map and config watcher -/

/-- A tool as reported by a backend's `tools/list`. -/
structure BackendTool where
  name : String
  description : Option String
  deriving Repr, DecidableEq

/-- A connected backend client together with the tools it reports. -/
structure Backend where
  name : String
  tools : List BackendTool
  deriving Repr, DecidableEq

/-- JS `Map.prototype.set`: overwrite the binding for `k` or append it. -/
def mapSet (m : List (String × String)) (k v : String) : List (String × String) :=
  if m.any (fun p => p.1 = k) then
    m.map (fun p => if p.1 = k then (k, v) else p)
  else
    m ++ [(k, v)]

/-- JS `Map.prototype.get`. -/
def mapGet (m : List (String × String)) (k : String) : Option String :=
  (m.find? (fun p => p.1 = k)).map (fun p => p.2)

/-- The per-client part of the `tools/list` handler loop:
`result.tools.map(tool => toolToClientMap.set(tool.name, connectedClient))`. -/
def registerClientTools (m : List (String × String)) (c : Backend) :
    List (String × String) :=
  c.tools.foldl (fun acc t => mapSet acc t.name c.name) m

/-- The route map rebuilt by the `tools/list` handler: the map is cleared,
then every connected client's tools are `set` into it in iteration
order. -/
def rebuildToolToClientMap (clients : List Backend) : List (String × String) :=
  clients.foldl registerClientTools []

/-- The aggregated tool list returned by the `tools/list` handler: each
backend tool with its description prefixed by `[<backend>]`, in client
iteration order and without deduplication, followed by the two built-in
tools `add_new_mcp` and `search_mcps`. -/
def listToolsAggregated (clients : List Backend) : List BackendTool :=
  (clients.flatMap (fun c => c.tools.map (fun t =>
    BackendTool.mk t.name
      (some ("[" ++ c.name ++ "] " ++ (match t.description with | some d => d | none => "")))))) ++
  [BackendTool.mk "add_new_mcp"
     (some "Add a new MCP server by name from the modelcontextprotocol/servers repository."),
   BackendTool.mk "search_mcps"
     (some "Search for MCP servers using semantic similarity based on your query. Returns the most relevant servers with their tools.")]

theorem mapGet_cons (p : String × String) (m : List (String × String)) (k : String) :
    mapGet (p :: m) k = if p.1 = k then some p.2 else mapGet m k := by
  by_cases h : p.1 = k
  · rw [if_pos h]
    unfold mapGet
    rw [List.find?_cons_of_pos _ (by simp [h])]
    rfl
  · rw [if_neg h]
    unfold mapGet
    rw [List.find?_cons_of_neg _ (by simp [h])]

theorem mapGet_append_fresh (m : List (String × String)) (k v k' : String) :
    mapGet (m ++ [(k, v)]) k' =
      if k = k' then
        match mapGet m k' with
        | some w => some w
        | none => some v
      else mapGet m k' := by
  induction m with
  | nil =>
    simp only [List.nil_append, mapGet_cons]
    by_cases h : k = k'
    · simp [h, mapGet, List.find?]
    · simp [h, mapGet, List.find?]
  | cons p rest ih =>
    rw [List.cons_append, mapGet_cons, mapGet_cons, ih]
    by_cases hp : p.1 = k'
    · simp [hp]
    · simp [hp]

theorem mapGet_map_update (m : List (String × String)) (k v k' : String) :
    mapGet (m.map (fun p => if p.1 = k then (k, v) else p)) k' =
      if k' = k then (if m.any (fun p => p.1 = k) then some v else none)
      else mapGet m k' := by
  induction m with
  | nil =>
    by_cases h : k' = k <;> simp [h, mapGet, List.find?]
  | cons p rest ih =>
    simp only [List.map_cons, List.any_cons]
    by_cases hp : p.1 = k
    · rw [if_pos hp, mapGet_cons, mapGet_cons, ih]
      by_cases h : k' = k
      · simp [h, hp]
      · have : ¬(k = k') := fun hc => h hc.symm
        simp only [this, if_false, if_neg h]
        rw [if_neg (hp ▸ this)]
    · rw [if_neg hp, mapGet_cons, mapGet_cons, ih]
      by_cases h : k' = k
      · subst h
        have hd : (decide (p.1 = k')) = false := by simp [hp]
        simp only [if_pos rfl, hd, Bool.false_or]
        simp [hp]
      · simp [h]

/-- JS `Map.set` then `Map.get`: the characteristic equation. -/
theorem mapGet_mapSet (m : List (String × String)) (k v k' : String) :
    mapGet (mapSet m k v) k' = if k' = k then some v else mapGet m k' := by
  unfold mapSet
  by_cases hany : m.any (fun p => p.1 = k)
  · rw [if_pos hany, mapGet_map_update]
    by_cases h : k' = k
    · simp [h, hany]
    · simp [h]
  · rw [if_neg hany, mapGet_append_fresh]
    by_cases h : k' = k
    · rw [if_pos (h ▸ rfl), if_pos h]
      have hnone : mapGet m k' = none := by
        subst h
        induction m with
        | nil => rfl
        | cons p rest ih =>
          rw [List.any_cons] at hany
          have hp : ¬p.1 = k' := fun hc =>
            hany ((Bool.or_eq_true _ _).mpr (Or.inl (by simp [hc])))
          have h2 : ¬rest.any (fun p => p.1 = k') := fun hc =>
            hany ((Bool.or_eq_true _ _).mpr (Or.inr hc))
          rw [mapGet_cons, if_neg hp]
          exact ih h2
      rw [hnone]
    · rw [if_neg (fun hc : k = k' => h hc.symm), if_neg h]

theorem mapGet_registerClientTools (c : Backend) (T : String) :
    ∀ m, mapGet (registerClientTools m c) T =
      if c.tools.any (fun t => t.name = T) then some c.name else mapGet m T := by
  unfold registerClientTools
  generalize c.tools = ts
  induction ts with
  | nil => intro m; simp
  | cons t rest ih =>
    intro m
    rw [List.foldl_cons, ih, List.any_cons]
    by_cases ht : t.name = T
    · have hd : (decide (t.name = T)) = true := by simp [ht]
      rw [hd, Bool.true_or]
      by_cases hr : rest.any (fun t => t.name = T)
      · rw [if_pos hr, if_pos rfl]
      · rw [if_neg hr, if_pos rfl, mapGet_mapSet, if_pos (ht ▸ rfl)]
    · have hd : (decide (t.name = T)) = false := by simp [ht]
      rw [hd, Bool.false_or, mapGet_mapSet]
      rw [if_neg (fun hc : T = t.name => ht hc.symm)]

theorem mapGet_rebuild_aux (T : String) :
    ∀ (clients : List Backend) (m : List (String × String)),
      mapGet (clients.foldl registerClientTools m) T =
        match (clients.filter (fun c => c.tools.any (fun t => t.name = T))).getLast? with
        | some c => some c.name
        | none => mapGet m T := by
  intro clients
  induction clients with
  | nil => intro m; rfl
  | cons c rest ih =>
    intro m
    rw [List.foldl_cons, ih]
    by_cases hc : c.tools.any (fun t => t.name = T)
    · rw [List.filter_cons_of_pos (by simpa using hc), List.getLast?_cons]
      cases hrest : (rest.filter (fun c => c.tools.any (fun t => t.name = T))).getLast? with
      | some c' => simp [hrest]
      | none =>
        simp only [hrest, Option.getD_none]
        rw [mapGet_registerClientTools, if_pos hc]
    · rw [List.filter_cons_of_neg (by simpa using hc)]
      cases hrest : (rest.filter (fun c => c.tools.any (fun t => t.name = T))).getLast? with
      | some c' => simp [hrest]
      | none =>
        simp only [hrest]
        rw [mapGet_registerClientTools, if_neg hc]

/-! ### C7: duplicate tool names in the rebuilt route map -/

/-- C7 counterexample: two connected backends `alpha` (first) and `beta`
(second) both expose tool `T`.  The rebuilt route map assigns `T` to
`beta` — the *last* backend encountered, because `Map.set` overwrites —
not to the first one, while the aggregated list still carries both
entries. -/
theorem C7_counterexample_first_encountered_loses :
    mapGet (rebuildToolToClientMap
      [Backend.mk "alpha" [BackendTool.mk "T" (some "a tool")],
       Backend.mk "beta" [BackendTool.mk "T" (some "b tool")]]) "T" = some "beta" ∧
    (some "beta" : Option String) ≠ some "alpha" ∧
    (listToolsAggregated
      [Backend.mk "alpha" [BackendTool.mk "T" (some "a tool")],
       Backend.mk "beta" [BackendTool.mk "T" (some "b tool")]]).map
        (fun t => t.name) = ["T", "T", "add_new_mcp", "search_mcps"] := by
  refine ⟨by decide, by decide, by decide⟩

/-- C7 (amended): when several connected backends expose a tool named `T`,
the `tools/list` handler's rebuilt route map assigns `T` to the *last*
backend encountered in iteration order over the connected clients
(`Map.set` overwrites earlier bindings), and no deduplication is performed
in the aggregated tool list: every backend's copy of `T` appears, followed
by the two built-ins. -/
theorem C7_route_map_last_wins_and_no_dedup (clients : List Backend) (T : String) :
    mapGet (rebuildToolToClientMap clients) T =
      ((clients.filter (fun c => c.tools.any (fun t => t.name = T))).getLast?).map
        (fun c => c.name) ∧
    (listToolsAggregated clients).map (fun t => t.name) =
      clients.flatMap (fun c => c.tools.map (fun t => t.name)) ++
        ["add_new_mcp", "search_mcps"] := by
  constructor
  · rw [rebuildToolToClientMap, mapGet_rebuild_aux]
    cases h : (clients.filter (fun c => c.tools.any (fun t => t.name = T))).getLast? with
    | some c => simp [h]
    | none => simp [h]; rfl
  · unfold listToolsAggregated
    rw [List.map_append]
    congr 1
    induction clients with
    | nil => rfl
    | cons c rest ih =>
      rw [List.flatMap_cons, List.flatMap_cons, List.map_append, ih, List.map_map]
      rfl

/-! ### C5: the config-file watcher and its semantic diff -/

/-- The proxy state held by `createServer()`: the in-memory config, the
connected clients (by server name), the three routing maps, the number of
`tools/list_changed` notifications emitted, and the accumulated list of
clients whose `cleanup()` was invoked. -/
structure ProxyState where
  config : Config
  connectedClients : List String
  toolToClientMap : List (String × String)
  resourceToClientMap : List (String × String)
  promptToClientMap : List (String × String)
  notifications : Nat
  closedClients : List String
  deriving Repr, DecidableEq

/-- `createClients(servers)`: one connected client per server whose
transport handshake eventually succeeds (`connects` is the oracle deciding
that); servers that never connect within the retry budget are skipped. -/
def createClients (connects : ServerEntry → Bool) (servers : List ServerEntry) :
    List String :=
  (servers.filter connects).map (fun s => s.name)

/-- `reloadServerConnections()`: clean up every connected client, reload
the config from disk, create new clients, clear the three maps, and emit
one `tools/list_changed` notification. -/
def reloadServerConnections (connects : ServerEntry → Bool) (diskConfig : Config)
    (st : ProxyState) : ProxyState :=
  { config := diskConfig
    connectedClients := createClients connects diskConfig.servers
    toolToClientMap := []
    resourceToClientMap := []
    promptToClientMap := []
    notifications := st.notifications + 1
    closedClients := st.closedClients ++ st.connectedClients }

/-- The chokidar `change` handler on `config.json`: reload connections
only when `JSON.stringify(config.servers)` differs from the freshly loaded
servers; otherwise just replace the in-memory config. -/
def onConfigFileChange (connects : ServerEntry → Bool) (diskConfig : Config)
    (st : ProxyState) : ProxyState :=
  if st.config.servers = diskConfig.servers then
    { st with config := diskConfig }
  else
    reloadServerConnections connects diskConfig st

/-- C5: a config-file change reloads backend connections iff the servers
list (names and launch specs) differs from the in-memory config.  When the
servers are equal, the event is swallowed: no client is closed, no
`tools/list_changed` notification is emitted, the clients and route maps
are untouched, and only the in-memory config is updated.  When they
differ, every currently connected client is closed, the clients are
rebuilt from the on-disk servers list, the route maps are cleared, and
exactly one `tools/list_changed` notification is emitted. -/
theorem C5_watcher_semantic_diff (connects : ServerEntry → Bool)
    (diskConfig : Config) (st : ProxyState) :
    (st.config.servers = diskConfig.servers →
      onConfigFileChange connects diskConfig st = { st with config := diskConfig }) ∧
    (st.config.servers ≠ diskConfig.servers →
      (onConfigFileChange connects diskConfig st).closedClients =
        st.closedClients ++ st.connectedClients ∧
      (onConfigFileChange connects diskConfig st).connectedClients =
        createClients connects diskConfig.servers ∧
      (onConfigFileChange connects diskConfig st).notifications =
        st.notifications + 1 ∧
      (onConfigFileChange connects diskConfig st).toolToClientMap = [] ∧
      (onConfigFileChange connects diskConfig st).config = diskConfig) := by
  constructor
  · intro h
    unfold onConfigFileChange
    rw [if_pos h]
  · intro h
    unfold onConfigFileChange
    rw [if_neg h]
    exact ⟨rfl, rfl, rfl, rfl, rfl⟩

/-- C5 witness: one swallowed event (same servers, differing queue) and
one genuine reload (a server added on disk). -/
theorem C5_watcher_semantic_diff_witness :
    ((ProxyState.mk (Config.mk [ServerEntry.mk "a" {}] []) ["a"] [("t", "a")] [] [] 0 []).config.servers =
        (Config.mk [ServerEntry.mk "a" {}] ["a"]).servers ∧
      onConfigFileChange (fun _ => true) (Config.mk [ServerEntry.mk "a" {}] ["a"])
        (ProxyState.mk (Config.mk [ServerEntry.mk "a" {}] []) ["a"] [("t", "a")] [] [] 0 []) =
      { ProxyState.mk (Config.mk [ServerEntry.mk "a" {}] []) ["a"] [("t", "a")] [] [] 0 [] with
          config := Config.mk [ServerEntry.mk "a" {}] ["a"] }) ∧
    ((ProxyState.mk (Config.mk [ServerEntry.mk "a" {}] []) ["a"] [("t", "a")] [] [] 0 []).config.servers ≠
        (Config.mk [ServerEntry.mk "a" {}, ServerEntry.mk "b" {}] []).servers ∧
      (onConfigFileChange (fun _ => true)
          (Config.mk [ServerEntry.mk "a" {}, ServerEntry.mk "b" {}] [])
          (ProxyState.mk (Config.mk [ServerEntry.mk "a" {}] []) ["a"] [("t", "a")] [] [] 0 [])).closedClients =
        [] ++ ["a"] ∧
      (onConfigFileChange (fun _ => true)
          (Config.mk [ServerEntry.mk "a" {}, ServerEntry.mk "b" {}] [])
          (ProxyState.mk (Config.mk [ServerEntry.mk "a" {}] []) ["a"] [("t", "a")] [] [] 0 [])).connectedClients =
        createClients (fun _ => true) [ServerEntry.mk "a" {}, ServerEntry.mk "b" {}] ∧
      (onConfigFileChange (fun _ => true)
          (Config.mk [ServerEntry.mk "a" {}, ServerEntry.mk "b" {}] [])
          (ProxyState.mk (Config.mk [ServerEntry.mk "a" {}] []) ["a"] [("t", "a")] [] [] 0 [])).notifications =
        0 + 1 ∧
      (onConfigFileChange (fun _ => true)
          (Config.mk [ServerEntry.mk "a" {}, ServerEntry.mk "b" {}] [])
          (ProxyState.mk (Config.mk [ServerEntry.mk "a" {}] []) ["a"] [("t", "a")] [] [] 0 [])).toolToClientMap =
        [] ∧
      (onConfigFileChange (fun _ => true)
          (Config.mk [ServerEntry.mk "a" {}, ServerEntry.mk "b" {}] [])
          (ProxyState.mk (Config.mk [ServerEntry.mk "a" {}] []) ["a"] [("t", "a")] [] [] 0 [])).config =
        Config.mk [ServerEntry.mk "a" {}, ServerEntry.mk "b" {}] []) :=
  ⟨⟨by decide,
    (C5_watcher_semantic_diff (fun _ => true) (Config.mk [ServerEntry.mk "a" {}] ["a"])
      (ProxyState.mk (Config.mk [ServerEntry.mk "a" {}] []) ["a"] [("t", "a")] [] [] 0 [])).1
      (by decide)⟩,
   ⟨by decide,
    (C5_watcher_semantic_diff (fun _ => true)
      (Config.mk [ServerEntry.mk "a" {}, ServerEntry.mk "b" {}] [])
      (ProxyState.mk (Config.mk [ServerEntry.mk "a" {}] []) ["a"] [("t", "a")] [] [] 0 [])).2
      (by decide)⟩⟩

/-! ## HTTP layer (`http-streaming.ts`): auth middleware and health -/

/-- An incoming HTTP request as seen by the express middleware: its path
and its (optional) `Authorization` header. -/
structure HttpRequest where
  path : String
  authorization : Option String
  deriving Repr, DecidableEq

/-- `hasValidAuth(req)`: an `Authorization` header is present and starts
with `Bearer `. -/
def hasValidAuth (req : HttpRequest) : Bool :=
  match req.authorization with
  | none => false
  | some h => jsStartsWith h "Bearer "

/-- Outcome of the auth middleware: pass the request on (`next()`) or
answer it with the 401 produced by `handleUnauthorized`. -/
inductive MiddlewareOutcome where
  | next
  | unauthorized
  deriving Repr, DecidableEq

/-- The `app.use` authentication middleware.  Paths under `/.well-known/`
and the `/health` path skip auth.  For every other request the presence
check (`if (!hasValidAuth(req)) return handleUnauthorized(res)`) is
commented out in the source — "Skip authentication for local development"
— so the middleware always calls `next()`. -/
def authMiddleware (req : HttpRequest) : MiddlewareOutcome :=
  if jsStartsWith req.path "/.well-known/" || req.path == "/health" then
    MiddlewareOutcome.next
  else
    MiddlewareOutcome.next

/-- A JSON value (only the shapes the embedded endpoints produce). -/
inductive JsonValue where
  | s (v : String)
  | b (v : Bool)
  | i (v : Int)
  | null
  deriving Repr, DecidableEq

/-- An HTTP response carrying a status, optional `WWW-Authenticate`
header, and a JSON object body as an ordered field list. -/
structure HttpJsonResponse where
  status : Nat
  wwwAuthenticate : Option String
  body : List (String × JsonValue)
  deriving Repr, DecidableEq

/-- Field lookup in a JSON object body. -/
def jsonGet (body : List (String × JsonValue)) (k : String) : Option JsonValue :=
  (body.find? (fun p => p.1 = k)).map (fun p => p.2)

/-- `handleUnauthorized(res)`: HTTP 401, a `WWW-Authenticate` header
naming the resource-metadata URL, and a JSON-RPC error body with code
`-32001`. -/
def handleUnauthorized : HttpJsonResponse :=
  { status := 401
    wwwAuthenticate :=
      some "Bearer realm=\"MCP Server\", resource_metadata_uri=\"/.well-known/oauth-protected-resource\""
    body :=
      [("jsonrpc", JsonValue.s "2.0"),
       ("error_code", JsonValue.i (-32001)),
       ("error_message", JsonValue.s "Unauthorized: Authentication required"),
       ("id", JsonValue.null)] }

/-- The `GET /health` handler: `res.json` (status 200) with the literal
object `{status: 'ok', transportActive: !!sharedTransport, timestamp:
new Date().toISOString()}`.  The boolean argument is `!!sharedTransport`
and the string argument is the ISO-8601 timestamp produced by
`toISOString()`. -/
def healthHandler (transportActive : Bool) (nowIso : String) : HttpJsonResponse :=
  { status := 200
    wwwAuthenticate := none
    body :=
      [("status", JsonValue.s "ok"),
       ("transportActive", JsonValue.b transportActive),
       ("timestamp", JsonValue.s nowIso)] }

/-! ### C3: the auth gate is disabled in the source -/

/-- C3 counterexample: a `POST /mcp`-style request with *no*
`Authorization` header is passed through by the middleware (`next()`)
instead of being answered with the 401 the claim requires; the request is
not under `/.well-known/` and is not `/health`, and indeed fails the
presence check. -/
theorem C3_counterexample_missing_auth_passes :
    authMiddleware (HttpRequest.mk "/mcp" none) = MiddlewareOutcome.next ∧
    authMiddleware (HttpRequest.mk "/mcp" none) ≠ MiddlewareOutcome.unauthorized ∧
    hasValidAuth (HttpRequest.mk "/mcp" none) = false ∧
    jsStartsWith "/mcp" "/.well-known/" = false ∧
    ("/mcp" : String) ≠ "/health" := by
  refine ⟨rfl, by decide, rfl, by decide, by decide⟩

/-- C3 (amended): the middleware exempts paths under `/.well-known/` and
`/health`, but the Authorization presence check on the remaining routes is
commented out in the source, so every request — with or without an
`Authorization: Bearer` header — is passed through.  `handleUnauthorized`
(still invoked when an upstream transport error carries code `-32001`)
produces HTTP 401 with a `WWW-Authenticate` header referencing the
resource-metadata URL and a JSON-RPC body with error code `-32001`. -/
theorem C3_auth_gate_disabled (req : HttpRequest) :
    authMiddleware req = MiddlewareOutcome.next ∧
    handleUnauthorized.status = 401 ∧
    handleUnauthorized.wwwAuthenticate =
      some "Bearer realm=\"MCP Server\", resource_metadata_uri=\"/.well-known/oauth-protected-resource\"" ∧
    jsonGet handleUnauthorized.body "error_code" = some (JsonValue.i (-32001)) := by
  refine ⟨?_, rfl, rfl, by decide⟩
  unfold authMiddleware
  by_cases h : jsStartsWith req.path "/.well-known/" || req.path == "/health"
  · rw [if_pos h]
  · rw [if_neg h]

/-! ### C9: the health endpoint's field names -/

/-- C9 counterexample: the health body has no `transport_active` field;
the boolean is published under the camel-cased key `transportActive`.  The
claim's required field name is absent for every response the handler can
produce at this concrete input. -/
theorem C9_counterexample_no_transport_active_field :
    jsonGet (healthHandler true "2026-10-12T00:00:00.000Z").body "transport_active" = none ∧
    jsonGet (healthHandler true "2026-10-12T00:00:00.000Z").body "transportActive" =
      some (JsonValue.b true) := by
  refine ⟨by decide, by decide⟩

/-- C9 (amended): every `GET /health` request receives HTTP 200 with a
JSON body whose `status` field is `"ok"`, whose **`transportActive`**
field is the boolean `!!sharedTransport` (whether an upstream transport is
currently active), and whose `timestamp` field is the ISO-8601 string
produced by `toISOString()`; no `transport_active` field is present. -/
theorem C9_health_endpoint_shape (transportActive : Bool) (nowIso : String) :
    (healthHandler transportActive nowIso).status = 200 ∧
    jsonGet (healthHandler transportActive nowIso).body "status" =
      some (JsonValue.s "ok") ∧
    jsonGet (healthHandler transportActive nowIso).body "transportActive" =
      some (JsonValue.b transportActive) ∧
    jsonGet (healthHandler transportActive nowIso).body "timestamp" =
      some (JsonValue.s nowIso) ∧
    jsonGet (healthHandler transportActive nowIso).body "transport_active" = none := by
  refine ⟨rfl, ?_, ?_, ?_, ?_⟩ <;>
    simp [healthHandler, jsonGet, List.find?]

/-! ## Text-based search fallback (`search-mcps.ts`, `searchMCPsTextBased`) -/

/-- Lexicographic order on character lists (the order JS string `<` and a
lexicographic-name tie-break would use). -/
def charsLt : List Char → List Char → Bool
  | [], [] => false
  | [], _ :: _ => true
  | _ :: _, [] => false
  | a :: as, b :: bs => if a < b then true else if b < a then false else charsLt as bs

/-- The keyword score of one indexed server against the lower-cased
query: +100 exact name, +50 display-name substring, +40 summary
substring, +30 per use-case substring, +20 per tool-name substring,
+15 per tool-description substring, +10 per query word longer than two
characters found in the summary. -/
def textScore (queryLower : String) (server : EnhancedServer) : Nat :=
  let s1 := if jsToLower server.name = queryLower then 100 else 0
  let s2 := if jsIncludes (jsToLower server.displayName) queryLower then 50 else 0
  let s3 := if jsIncludes (jsToLower server.aiSummary) queryLower then 40 else 0
  let s4 := 30 * server.aiUseCases.countP (fun u => jsIncludes (jsToLower u) queryLower)
  let s5 := server.toolDescriptions.foldl
    (fun acc tool =>
      acc + (if jsIncludes (jsToLower tool.name) queryLower then 20 else 0) +
        (match tool.description with
         | some d => if jsIncludes (jsToLower d) queryLower then 15 else 0
         | none => 0)) 0
  let s6 := 10 * (jsSplitWs queryLower).countP
    (fun word => decide (2 < word.length) && jsIncludes (jsToLower server.aiSummary) word)
  s1 + s2 + s3 + s4 + s5 + s6

/-- The result record the search returns. -/
structure SearchMCPResult where
  id : String
  name : String
  displayName : String
  description : String
  distance : ℚ
  similarity : ℚ
  tools : List ToolDescription
  toolCount : Nat
  deriving Repr, DecidableEq

/-- The final `.map((server, index) => …)` step of the text fallback. -/
def mkSearchResult (idx : Nat) (p : EnhancedServer × Nat) : SearchMCPResult :=
  { id := toString (idx + 1)
    name := p.1.name
    displayName := p.1.displayName
    description := p.1.aiSummary
    distance := max 0 (((100 : ℚ) - (p.2 : ℚ)) / 100)
    similarity := min 1 ((p.2 : ℚ) / 100)
    tools := p.1.toolDescriptions
    toolCount := p.1.toolCount }

/-- `enhancedIndex.servers.map(server => ({...server, score}))`. -/
def scoredServers (index : List EnhancedServer) (queryLower : String) :
    List (EnhancedServer × Nat) :=
  index.map (fun s => (s, textScore queryLower s))

/-- JS `Array.prototype.sort((a, b) => b.score - a.score)`: a stable sort
by descending score, modelled by insertion sort with the relation
"score at least as large". -/
def searchSortDesc (l : List (EnhancedServer × Nat)) : List (EnhancedServer × Nat) :=
  List.insertionSort (fun a b => b.2 ≤ a.2) l

/-- `searchMCPsTextBased(query, limit)`: score everything, keep positive
scores, sort by descending score (stable), truncate to `limit`, and build
result records (`similarity = min(1, score/100)`,
`distance = max(0, (100 - score)/100)`, `id` the 1-based rank). -/
def searchMCPsTextBased (index : List EnhancedServer) (query : String)
    (limit : Nat) : List SearchMCPResult :=
  let queryLower := jsToLower query
  let filtered := (scoredServers index queryLower).filter (fun p => 0 < p.2)
  let sorted := searchSortDesc filtered
  (sorted.take limit).enum.map (fun ip => mkSearchResult ip.1 ip.2)

instance : IsTotal (EnhancedServer × Nat) (fun a b => b.2 ≤ a.2) :=
  ⟨fun a b => Nat.le_total b.2 a.2⟩

instance : IsTrans (EnhancedServer × Nat) (fun a b => b.2 ≤ a.2) :=
  ⟨fun _ _ _ hab hbc => Nat.le_trans hbc hab⟩

theorem orderedInsert_filter_score (c : Nat) (x : EnhancedServer × Nat) :
    ∀ l : List (EnhancedServer × Nat),
      (List.orderedInsert (fun a b => b.2 ≤ a.2) x l).filter (fun p => p.2 = c) =
        if x.2 = c then x :: l.filter (fun p => p.2 = c)
        else l.filter (fun p => p.2 = c) := by
  intro l
  induction l with
  | nil =>
    by_cases h : x.2 = c
    · simp [List.orderedInsert, List.filter, h]
    · simp [List.orderedInsert, List.filter, h]
  | cons y ys ih =>
    rw [List.orderedInsert]
    by_cases hr : y.2 ≤ x.2
    · rw [if_pos hr]
      by_cases h : x.2 = c
      · rw [List.filter_cons_of_pos (by simpa using h), if_pos h]
      · rw [List.filter_cons_of_neg (by simpa using h), if_neg h]
    · rw [if_neg hr]
      have hy : ¬y.2 = c → (y :: List.orderedInsert (fun a b => b.2 ≤ a.2) x ys).filter
          (fun p => p.2 = c) = (List.orderedInsert (fun a b => b.2 ≤ a.2) x ys).filter
          (fun p => p.2 = c) := fun hyc =>
        List.filter_cons_of_neg (by simpa using hyc)
      by_cases h : x.2 = c
      · have hyc : ¬y.2 = c := by
          intro hc
          exact hr (le_of_eq (hc.trans h.symm))
        rw [hy hyc, ih, if_pos h, List.filter_cons_of_neg (by simpa using hyc), if_pos h]
      · by_cases hyc : y.2 = c
        · rw [List.filter_cons_of_pos (by simpa using hyc), ih, if_neg h,
            List.filter_cons_of_pos (by simpa using hyc), if_neg h]
        · rw [hy hyc, ih, if_neg h, List.filter_cons_of_neg (by simpa using hyc), if_neg h]

theorem searchSortDesc_filter_score (c : Nat) :
    ∀ l : List (EnhancedServer × Nat),
      (searchSortDesc l).filter (fun p => p.2 = c) = l.filter (fun p => p.2 = c) := by
  intro l
  induction l with
  | nil => rfl
  | cons x xs ih =>
    show (List.orderedInsert (fun a b => b.2 ≤ a.2) x
        (List.insertionSort (fun a b => b.2 ≤ a.2) xs)).filter (fun p => p.2 = c) = _
    rw [orderedInsert_filter_score]
    by_cases h : x.2 = c
    · rw [if_pos h, List.filter_cons_of_pos (by simpa using h)]
      exact congrArg (x :: ·) ih
    · rw [if_neg h, List.filter_cons_of_neg (by simpa using h)]
      exact ih

theorem mem_enumFrom_snd {α : Type} {x : Nat × α} :
    ∀ {j : Nat} {l : List α}, x ∈ List.enumFrom j l → x.2 ∈ l := by
  intro j l
  induction l generalizing j with
  | nil => intro h; simp [List.enumFrom] at h
  | cons a as ih =>
    intro h
    rw [List.enumFrom] at h
    rcases List.mem_cons.mp h with h | h
    · subst h
      exact List.mem_cons_self a as
    · exact List.mem_cons.mpr (Or.inr (ih h))

/-! ### C8: the text fallback's ordering -/

/-- An index entry named `zeta` whose display name matches the query. -/
def cexZeta : EnhancedServer :=
  EnhancedServer.mk "zeta" "match" "" "" [] 0 []

/-- An index entry named `alpha`, identical to `cexZeta` except the name,
listed *after* it in the enhanced index. -/
def cexAlpha : EnhancedServer :=
  EnhancedServer.mk "alpha" "match" "" "" [] 0 []

/-- C8 counterexample: `zeta` and `alpha` tie at score 50 for query
`"match"`, `alpha` is lexicographically smaller, yet the search returns
`zeta` first — ties are broken by the servers' original index order
(JS stable sort), not by lexicographic name as the claim states. -/
theorem C8_counterexample_tiebreak_not_lexicographic :
    textScore (jsToLower "match") cexZeta = textScore (jsToLower "match") cexAlpha ∧
    0 < textScore (jsToLower "match") cexZeta ∧
    charsLt cexAlpha.name.data cexZeta.name.data = true ∧
    (searchMCPsTextBased [cexZeta, cexAlpha] "match" 10).map (fun r => r.name) =
      ["zeta", "alpha"] ∧
    (searchMCPsTextBased [cexZeta, cexAlpha] "match" 10).map (fun r => r.name) ≠
      ["alpha", "zeta"] := by
  refine ⟨by decide, by decide, by decide, by decide, by decide⟩

/-- C8 (amended): the text fallback scores every indexed server by the
stated keyword formula (`textScore`), keeps only positive scores, orders
by descending score with ties broken by the servers' original index order
(the sort is stable), truncates to `limit`, and reports
`similarity = min(1, score/100)` (with `distance = max(0, (100-score)/100)`).
Stated here: the output is exactly the mapped prefix of the stable
descending sort of the positively-scored servers; that sort is descending
in score, a permutation of the filtered scored list, and preserves the
index order within every score class; the output length is
`min limit |filtered|`; and every returned record carries the clamped
normalized similarity of a positively-scored indexed server. -/
theorem C8_text_fallback_scoring_and_order (index : List EnhancedServer)
    (query : String) (limit : Nat) :
    searchMCPsTextBased index query limit =
      ((searchSortDesc ((scoredServers index (jsToLower query)).filter
          (fun p => 0 < p.2))).take limit).enum.map
        (fun ip => mkSearchResult ip.1 ip.2) ∧
    List.Sorted (fun a b => b.2 ≤ a.2)
      (searchSortDesc ((scoredServers index (jsToLower query)).filter
        (fun p => 0 < p.2))) ∧
    (searchSortDesc ((scoredServers index (jsToLower query)).filter
        (fun p => 0 < p.2))).Perm
      ((scoredServers index (jsToLower query)).filter (fun p => 0 < p.2)) ∧
    (∀ c, (searchSortDesc ((scoredServers index (jsToLower query)).filter
          (fun p => 0 < p.2))).filter (fun p => p.2 = c) =
        ((scoredServers index (jsToLower query)).filter
          (fun p => 0 < p.2)).filter (fun p => p.2 = c)) ∧
    (searchMCPsTextBased index query limit).length =
      min limit ((scoredServers index (jsToLower query)).filter
        (fun p => 0 < p.2)).length ∧
    ∀ r ∈ searchMCPsTextBased index query limit,
      ∃ p ∈ (scoredServers index (jsToLower query)).filter (fun p => 0 < p.2),
        r.name = p.1.name ∧ r.similarity = min 1 ((p.2 : ℚ) / 100) ∧
        r.distance = max 0 (((100 : ℚ) - (p.2 : ℚ)) / 100) ∧ 0 < p.2 := by
  refine ⟨rfl, List.sorted_insertionSort _ _, List.perm_insertionSort _ _,
    fun c => searchSortDesc_filter_score c _, ?_, ?_⟩
  · show (((searchSortDesc _).take limit).enum.map
      (fun ip => mkSearchResult ip.1 ip.2)).length = _
    rw [List.length_map, List.enum_length, List.length_take, searchSortDesc,
      List.length_insertionSort]
  · intro r hr
    rw [searchMCPsTextBased] at hr
    obtain ⟨ip, hip, hr⟩ := List.mem_map.mp hr
    have hmem1 : ip.2 ∈ (searchSortDesc ((scoredServers index (jsToLower query)).filter
        (fun p => 0 < p.2))).take limit := mem_enumFrom_snd hip
    have hmem2 : ip.2 ∈ searchSortDesc ((scoredServers index (jsToLower query)).filter
        (fun p => 0 < p.2)) := (List.take_sublist _ _).mem hmem1
    have hmem3 : ip.2 ∈ (scoredServers index (jsToLower query)).filter
        (fun p => 0 < p.2) :=
      (List.perm_insertionSort _ _).mem_iff.mp hmem2
    have hpos : 0 < ip.2.2 := by
      have := (List.mem_filter.mp hmem3).2
      exact of_decide_eq_true this
    refine ⟨ip.2, hmem3, ?_, ?_, ?_, hpos⟩
    · rw [← hr]; rfl
    · rw [← hr]; rfl
    · rw [← hr]; rfl

/-- C8 witness: concrete two-entry index, query `"match"`, limit 10. -/
theorem C8_text_fallback_scoring_and_order_witness :
    ((searchMCPsTextBased [cexZeta, cexAlpha] "match" 10).length =
       min 10 ((scoredServers [cexZeta, cexAlpha] (jsToLower "match")).filter
         (fun p => 0 < p.2)).length) ∧
    (∃ p ∈ (scoredServers [cexZeta, cexAlpha] (jsToLower "match")).filter
        (fun p => 0 < p.2),
       (mkSearchResult 0 (cexZeta, 50)).name = p.1.name ∧
       (mkSearchResult 0 (cexZeta, 50)).similarity = min 1 ((p.2 : ℚ) / 100) ∧
       (mkSearchResult 0 (cexZeta, 50)).distance =
         max 0 (((100 : ℚ) - (p.2 : ℚ)) / 100) ∧
       0 < p.2) :=
  ⟨(C8_text_fallback_scoring_and_order [cexZeta, cexAlpha] "match" 10).2.2.2.2.1,
   (C8_text_fallback_scoring_and_order [cexZeta, cexAlpha] "match" 10).2.2.2.2.2
     (mkSearchResult 0 (cexZeta, 50))
     (by
       have h : searchMCPsTextBased [cexZeta, cexAlpha] "match" 10 =
           [mkSearchResult 0 (cexZeta, 50), mkSearchResult 1 (cexAlpha, 50)] := rfl
       rw [h]
       exact List.mem_cons_self _ _)⟩
